import Mathlib

/-!
Verification development for `shell_calc.py` (tr-c-nushellx): a shallow
embedding of the job-discovery, idempotency-oracle, task-executor,
bounded-concurrency scheduler and progress-reporter code, together with
theorems settling the specification claims.

Filenames are modelled as `String`; a directory's contents as a
`List String` of entry names.  External process launches (`Popen`) are
modelled by environment parameters: an `Option Int` is `some rc` when the
launch succeeds and the process eventually exits with code `rc`, and
`none` when the launch itself raises `OSError`.
-/

namespace ShellCalc

/-! ### Python-style string primitives -/

/-- Python `str.rfind(c)`: index of the last occurrence of `c`, `-1` if absent. -/
def pyRfind (s : List Char) (c : Char) : Int :=
  match s.reverse.findIdx? (fun x => x = c) with
  | some i => (s.length : Int) - 1 - i
  | none => -1

/-- Normalise a Python slice index against length `n`. -/
def pyNormIdx (n : Nat) (i : Int) : Nat :=
  if i < 0 then ((n : Int) + i).toNat else min i.toNat n

/-- Python slice `s[i:j]` (negative indices count from the end). -/
def pySlice (s : List Char) (i j : Int) : List Char :=
  let a := pyNormIdx s.length i
  let b := pyNormIdx s.length j
  (s.drop a).take (b - a)

/-- Python `str.split(c)`: keeps empty segments, `"".split(c) = [""]`. -/
def pySplitAux (c : Char) : List Char → List Char → List (List Char)
  | [], acc => [acc.reverse]
  | x :: xs, acc =>
    if x = c then acc.reverse :: pySplitAux c xs []
    else pySplitAux c xs (x :: acc)

def pySplit (s : List Char) (c : Char) : List (List Char) :=
  pySplitAux c s []

/-! ### Regular-expression matchers used by the source

`re.match` anchors at the start only.  The three patterns in play are
`'(A\d+|usdb)\.int'`, `'A\d+\.ans'` and `'A\d+\.bat'`; since `\d+` is a
maximal digit run followed by a literal `'.'`, prefix matching with the
maximal run is equivalent to the regex search. -/

/-- Consume `A\d+` from the front; return the remainder, or `none` if the
head is not `'A'` followed by at least one digit. -/
def matchMassNum : List Char → Option (List Char)
  | 'A' :: rest =>
    if (rest.takeWhile Char.isDigit).isEmpty then none
    else some (rest.dropWhile Char.isDigit)
  | _ => none

/-- Success of `re.match('A\d+\.bat', f)` (pattern `_RGX_FNAME_BAT`). -/
def reMatchBat (f : String) : Bool :=
  match matchMassNum f.data with
  | some rest => ".bat".data.isPrefixOf rest
  | none => false

/-- Success of `re.match('A\d+\.ans', f)` (pattern `_RGX_FNAME_ANS`). -/
def reMatchAns (f : String) : Bool :=
  match matchMassNum f.data with
  | some rest => ".ans".data.isPrefixOf rest
  | none => false

/-- Success of `re.match('(A\d+|usdb)\.int', f)` (pattern `_RGX_FNAME_INT`). -/
def reMatchInt (f : String) : Bool :=
  (match matchMassNum f.data with
   | some rest => ".int".data.isPrefixOf rest
   | none => false)
  || "usdb.int".data.isPrefixOf f.data

/-- Test that `re.match('A\d+', elt)` matches and `m.group(0) == elt`: the whole
element is `'A'` followed by one or more digits. -/
def fullMassMatch (elt : String) : Bool :=
  match matchMassNum elt.data with
  | some rest => rest.isEmpty
  | none => false

/-! ### Filename parsing (`_mass_number_from_filename` and helpers) -/

/-- Source `_get_file`: first filename satisfying the matcher, else `None`. -/
def get_file (list_of_fname : List String) (matcher : String → Bool) : Option String :=
  list_of_fname.find? matcher

/-- Source `_filename_elts_list`: strip directory prefix and extension (by the
source's `rfind` slicing), then split on the separator character. -/
def filename_elts_list (fname : String) (split_char : Char) : List String :=
  let s := fname.data
  let ext_index := pyRfind s '.'
  let dir_index := pyRfind s '/'
  let filename_without_ext :=
    if dir_index ≠ -1 then pySlice s dir_index ext_index
    else pySlice s 0 ext_index
  (pySplit filename_without_ext split_char).map (fun l => String.mk l)

/-- Source `_elt_from_felts`: first element fully matching the mass-number regex. -/
def elt_from_felts (felts : List String) (fullmatch : String → Bool) : Option String :=
  felts.find? fullmatch

/-- Value of `int(s)` on a string of decimal digits. -/
def digitsToNat (l : List Char) : Nat :=
  l.foldl (fun n c => 10 * n + (c.toNat - 48)) 0

/-- Source `_mass_number_from_filename`: mass number extracted from a filename,
`none` when no element of the name fully matches `'A\d+'`. -/
def mass_number_from_filename (filename : String) : Option Nat :=
  let felts := (filename_elts_list filename '_').reverse
  match elt_from_felts felts fullMassMatch with
  | some mass =>
    if mass.data.length ≠ 0 then some (digitsToNat (mass.data.drop 1))
    else none
  | none => none

/-! ### Idempotency oracle (`_files_with_ext_in_directory`, `_calc_has_been_done`) -/

/-- Effect of `glob.glob(path.join(dpath, '*' + ext))` on a directory listing: an
entry matches when it ends with the extension and, per glob's hidden-file
rule, does not begin with a dot. -/
def globStarExt (extension : String) (f : String) : Bool :=
  extension.data.isSuffixOf f.data && !("." : String).data.isPrefixOf f.data

/-- Source `_files_with_ext_in_directory`: entries of the directory matching
`'*' + extension`. -/
def files_with_ext_in_directory (dirFiles : List String) (extension : String) :
    List String :=
  dirFiles.filter (globStarExt extension)

/-- Source `_calc_has_been_done`: strictly more than one `.lpt` file present. -/
def calc_has_been_done (dirFiles : List String) : Bool :=
  decide (1 < (files_with_ext_in_directory dirFiles ".lpt").length)

/-! ### Job discovery (`do_calculations`, lines 785-792) -/

/-- One directory produced by `os.walk`: its path and its file listing. -/
structure DirEntry where
  root : String
  files : List String
deriving DecidableEq, Repr

/-- The body of the discovery loop: a directory is appended to `todo`
exactly when it has an interaction file, `force` holds or no `.bat` file
is present, and the extracted mass number is a member of `a_range`
(`None in a_range` being false). -/
def selectPred (a_range : List Nat) (force : Bool) (files : List String) : Bool :=
  match get_file files reMatchInt with
  | none => false
  | some fname_int =>
    let fname_bat := get_file files reMatchBat
    if force || fname_bat.isNone then
      match mass_number_from_filename fname_int with
      | some a => decide (a ∈ a_range)
      | none => false
    else false

/-- The pending set built by `do_calculations` over a walked tree. -/
def discoverTodo (tree : List DirEntry) (a_range : List Nat) (force : Bool) :
    List DirEntry :=
  tree.filter (fun d => selectPred a_range force d.files)

/-! ### Task executor (`_shell_and_bat` and the per-stage functions)

The external programs are supplied by a `JobEnv`: `shellStep` is the
effect of a successful `shell` run on the directory listing, `shellRet`
its exit status; `batDirect`/`batShell` give the exit status of the
`source` invocation when the direct (resp. `shell=True`) `Popen`
launches, and are `none` when that `Popen` raises `OSError`. -/

structure JobEnv where
  shellStep : List String → List String
  shellRet : Int
  batDirect : Option Int
  batShell : Option Int

/-- Source `_do_shell_calculation`: run `shell` iff a `*.ans` file is present and
(`force` or no `*.bat` file); returns the exit status, `none` if skipped. -/
def do_shell_calculation (env : JobEnv) (files : List String) (force : Bool) :
    Option Int :=
  let fname_ans := get_file files reMatchAns
  let fname_bat := get_file files reMatchBat
  if fname_ans.isSome && (fname_bat.isNone || force) then some env.shellRet
  else none

/-- Source `_bat_calculation`: direct `Popen(['source', bat])`; on `OSError`
retry once with `shell=True`; an `OSError` from the retry propagates.
Returns (exit status, whether the interpreter-mediated retry was used). -/
def bat_calculation (batDirect batShell : Option Int) : Except Unit (Int × Bool) :=
  match batDirect with
  | some rc => Except.ok (rc, false)
  | none =>
    match batShell with
    | some rc => Except.ok (rc, true)
    | none => Except.error ()

/-- Source `_do_bat_calculation`: run the `*.bat` file iff one is present and
(`force` or the oracle reports not done); `ok none` when skipped. -/
def do_bat_calculation (env : JobEnv) (files : List String) (force : Bool) :
    Except Unit (Option (Int × Bool)) :=
  match get_file files reMatchBat with
  | none => Except.ok none
  | some _ =>
    if force || !calc_has_been_done files then
      match bat_calculation env.batDirect env.batShell with
      | Except.ok r => Except.ok (some r)
      | Except.error e => Except.error e
    else Except.ok none

/-- Observable outcome of one `_shell_and_bat` call.  `ret1`/`ret2` are
the two stages' exit statuses (`none` = stage skipped); `batRetried`
records use of the `shell=True` retry path; `verbose` is the flag the
stage invocations received (it selects streaming vs capture-to-file). -/
structure ExecOutcome where
  ret1 : Option Int
  ret2 : Option Int
  shellInvoked : Bool
  batInvoked : Bool
  batRetried : Bool
  verbose : Bool
deriving DecidableEq, Repr

/-- Source `_shell_and_bat`: stage 1 decided on the walk-time listing `files`;
then the directory is re-listed (`listdir`), reflecting `shell`'s side
effects when it ran; stage 2 is decided on that fresh listing `disk`
evolves to.  An uncaught `OSError` from stage 2 propagates. -/
def shell_and_bat (env : JobEnv) (files disk : List String)
    (force verbose : Bool) : Except Unit ExecOutcome :=
  let ret1 := do_shell_calculation env files force
  let new_files := if ret1.isSome then env.shellStep disk else disk
  match do_bat_calculation env new_files force with
  | Except.error e => Except.error e
  | Except.ok r =>
    Except.ok
      { ret1 := ret1
        ret2 := r.map Prod.fst
        shellInvoked := ret1.isSome
        batInvoked := r.isSome
        batRetried := (r.map Prod.snd).getD false
        verbose := verbose }

/-! ### Sequential dispatch (`_do_calculation`) -/

/-- The body of `_do_calculation`'s loop: run `_shell_and_bat` for each
pending directory in order; an uncaught exception aborts the whole run
(the remaining jobs are not executed). -/
def seqRun (envf : DirEntry → JobEnv) (force verbose : Bool) :
    List DirEntry → Except Unit (List ExecOutcome)
  | [] => Except.ok []
  | j :: rest =>
    match shell_and_bat (envf j) j.files j.files force verbose with
    | Except.error e => Except.error e
    | Except.ok o =>
      match seqRun envf force verbose rest with
      | Except.error e => Except.error e
      | Except.ok os => Except.ok (o :: os)

/-- Source `_do_calculation`: sequential dispatch; on normal termination the
completed count is the number of jobs processed and the function returns
`jobs_completed == jobs_total`. -/
def do_calculation_run (envf : DirEntry → JobEnv) (todo : List DirEntry)
    (force verbose : Bool) : Except Unit (List ExecOutcome × Bool) :=
  match seqRun envf force verbose todo with
  | Except.error e => Except.error e
  | Except.ok os => Except.ok (os, os.length == todo.length)

/-! ### Threaded scheduler (`_do_calculation_t`) as a transition system

State of the loop in lines 705-723: `todo` is `todo_list`; `active` is
`active_list` (threads started and not yet joined-and-removed, including
those already finished and sitting in `done_queue`); `doneq` is the FIFO
`done_queue`; `completed` is `jobs_completed`. -/

structure TState where
  todo : List DirEntry
  active : List DirEntry
  doneq : List DirEntry
  completed : Nat
deriving DecidableEq, Repr

/-- Initial scheduler state for a pending list. -/
def initT (todo : List DirEntry) : TState :=
  { todo := todo, active := [], doneq := [], completed := 0 }

/-- Atomic events of the scheduler loop and its workers:
`launch` pops the last element of `todo_list` and starts a thread, guarded
by `len(active_list) < _max_open_threads`; `finish` is a worker putting
its thread on `done_queue` (it stays in `active_list`); `drain` is the
coordinator getting one thread from the queue, joining it, removing it
from `active_list` and incrementing `jobs_completed`. -/
inductive TStep (N : Nat) : TState → TState → Prop where
  | launch : ∀ (rest : List DirEntry) (j : DirEntry) {s : TState},
      s.todo = rest ++ [j] → s.active.length < N →
      TStep N s { todo := rest, active := j :: s.active,
                  doneq := s.doneq, completed := s.completed }
  | finish : ∀ (j : DirEntry) {s : TState}, j ∈ s.active →
      TStep N s { todo := s.todo, active := s.active,
                  doneq := s.doneq ++ [j], completed := s.completed }
  | drain : ∀ (j : DirEntry) (rest : List DirEntry) {s : TState},
      s.doneq = j :: rest → j ∈ s.active →
      TStep N s { todo := s.todo, active := s.active.erase j,
                  doneq := rest, completed := s.completed + 1 }

/-- Reachability under scheduler steps. -/
def TReach (N : Nat) : TState → TState → Prop :=
  Relation.ReflTransGen (TStep N)

/-- The value `_do_calculation_t` returns when its loop exits:
`jobs_completed == jobs_total`. -/
def tRet (s : TState) (total : Nat) : Bool :=
  s.completed == total

/-- The steps of the sequential loop viewed as a transition system on
(remaining jobs, `jobs_completed`). -/
inductive SeqStep : List DirEntry × Nat → List DirEntry × Nat → Prop where
  | step : ∀ (j : DirEntry) (rest : List DirEntry) (c : Nat),
      SeqStep (j :: rest, c) (rest, c + 1)

/-- Reachability under sequential steps. -/
def SeqReach : List DirEntry × Nat → List DirEntry × Nat → Prop :=
  Relation.ReflTransGen SeqStep

/-- The value `_do_calculation` returns when its loop exits. -/
def seqRet (s : List DirEntry × Nat) (total : Nat) : Bool :=
  s.2 == total

/-- Constant `MAX_OPEN_THREADS`. -/
def MAX_OPEN_THREADS : Nat := 10

/-! ### Dispatcher entry (`do_calculations`, lines 793-800) -/

/-- Result of a dispatch: the threaded path yields one per-thread result
per job (a dead thread's job has no outcome); the sequential path yields
the outcome list or the propagated exception. -/
inductive DispatchResult where
  | threadedRes (outs : List (Except Unit ExecOutcome))
  | seqRes (r : Except Unit (List ExecOutcome))

/-- The branch `do_calculations` takes after discovery: when `threading`
holds and more than one job is pending it calls `_do_calculation_t`,
whose worker `_r` invokes `_shell_and_bat` with `verbose=False` (the
configured `verbose` is not even passed down); otherwise it calls
`_do_calculation` with the configured `verbose`. -/
def do_calculations_model (envf : DirEntry → JobEnv) (tree : List DirEntry)
    (a_range : List Nat) (force verbose threading : Bool) : DispatchResult :=
  let todo := discoverTodo tree a_range force
  if threading && decide (1 < todo.length) then
    DispatchResult.threadedRes
      (todo.map (fun j => shell_and_bat (envf j) j.files j.files force false))
  else
    DispatchResult.seqRes (seqRun envf force verbose todo)

/-- Per-thread results of the threaded branch (empty for the sequential
branch). -/
def dispatchThreadOuts : DispatchResult → List (Except Unit ExecOutcome)
  | DispatchResult.threadedRes outs => outs
  | DispatchResult.seqRes _ => []

/-! ### Progress reporter (`_print_progress`)

The characters the function writes to stdout, `none` when it writes
nothing.  `WIDTH_TERM = 79`, `WIDTH_PROGRESS_BAR = 48`, and the label
format is `'  Progress: %3d/%-3d '`.  The float arithmetic
`floor((completed/total) * bar_len)` is modelled exactly on the rationals:
for naturals it is `completed * bar_len / total` (floor division). -/

/-- Constant `WIDTH_TERM`. -/
def WIDTH_TERM : Nat := 79

/-- Constant `WIDTH_PROGRESS_BAR`. -/
def WIDTH_PROGRESS_BAR : Nat := 48

/-- Decimal digit character. -/
def digitChar (n : Nat) : Char :=
  if n = 0 then '0' else if n = 1 then '1' else if n = 2 then '2'
  else if n = 3 then '3' else if n = 4 then '4' else if n = 5 then '5'
  else if n = 6 then '6' else if n = 7 then '7' else if n = 8 then '8'
  else '9'

/-- Decimal digits of `n` (fuel-driven so that it reduces by `rfl`). -/
def natCharsAux : Nat → Nat → List Char
  | 0, _ => []
  | fuel + 1, n =>
    if n < 10 then [digitChar n]
    else natCharsAux fuel (n / 10) ++ [digitChar (n % 10)]

/-- Decimal representation of a natural number. -/
def natChars (n : Nat) : List Char :=
  natCharsAux (n + 1) n

/-- Format `'%3d' % n`: right-justified in width 3. -/
def fmtNumR (n : Nat) : List Char :=
  List.replicate (3 - (natChars n).length) ' ' ++ natChars n

/-- Format `'%-3d' % n`: left-justified in width 3. -/
def fmtNumL (n : Nat) : List Char :=
  natChars n ++ List.replicate (3 - (natChars n).length) ' '

/-- Label `STR_PROGRESS_BAR % (floor(completed), total)`. -/
def progressText (completed total : Nat) : List Char :=
  "  Progress: ".data ++ fmtNumR completed ++ "/".data ++ fmtNumL total ++ " ".data

/-- Bar `'[' + '#'*bar_fill + ' '*(bar_len - bar_fill) + ']'`. -/
def progressBarChars (bar_fill bar_len : Nat) : List Char :=
  ['['] ++ List.replicate bar_fill '#' ++ List.replicate (bar_len - bar_fill) ' ' ++ [']']

/-- The full line built by `_print_progress` for `total > 0`. -/
def progressLineChars (completed total : Nat) (endFlag : Bool) : List Char :=
  let text := progressText completed total
  let bar_fill := completed * WIDTH_PROGRESS_BAR / total
  let progress_bar := progressBarChars bar_fill WIDTH_PROGRESS_BAR
  let sp_fill_len := WIDTH_TERM - text.length - progress_bar.length
  let line := '\r' :: (text ++ List.replicate sp_fill_len ' ' ++ progress_bar)
  if endFlag then line ++ ['\n'] else line

/-- Source `_print_progress`: the characters written to stdout (`none` when
`total == 0` and nothing is written). -/
def print_progress (completed total : Nat) (endFlag : Bool) : Option (List Char) :=
  if total > 0 then some (progressLineChars completed total endFlag) else none

/-! ## Helper lemmas -/

/-- Under the premises of the amended discovery claims, the selection
predicate reduces to the readiness test alone. -/
lemma selectPred_eq_of_mass (a_range : List Nat) (force : Bool)
    (files : List String) (f : String) (a : Nat)
    (hint : get_file files reMatchInt = some f)
    (hmass : mass_number_from_filename f = some a)
    (hrange : a ∈ a_range) :
    selectPred a_range force files
      = (force || (get_file files reMatchBat).isNone) := by
  unfold selectPred
  rw [hint]
  simp only [hmass]
  cases force || (get_file files reMatchBat).isNone <;> simp [hrange]

/-- A directory whose interaction filename has no parseable mass number is
never selected. -/
lemma selectPred_eq_false_of_mass_none (a_range : List Nat) (force : Bool)
    (files : List String) (f : String)
    (hint : get_file files reMatchInt = some f)
    (hmass : mass_number_from_filename f = none) :
    selectPred a_range force files = false := by
  unfold selectPred
  rw [hint]
  simp only [hmass]
  cases force || (get_file files reMatchBat).isNone <;> simp

/-! ## Claim theorems -/

/-- C1: the Idempotency Oracle reports a job directory completed if and
only if the number of files in it whose extension is the report extension
`.lpt` is strictly greater than 1; with zero or one such file it reports
pending. -/
theorem c1_oracle_completed_iff_multiple_reports (files : List String) :
    (calc_has_been_done files = true ↔
      1 < (files_with_ext_in_directory files ".lpt").length)
    ∧ (calc_has_been_done files = false ↔
      (files_with_ext_in_directory files ".lpt").length ≤ 1) := by
  constructor
  · simp [calc_has_been_done]
  · simp only [calc_has_been_done, decide_eq_false_iff_not, Nat.not_lt]

/-- C2 counterexample: the directory `Z6/A12` holds `A12.int` and
`A12.bat` and no `.lpt` file; its identifier 12 passes the range
predicate, `force` is false and the Idempotency Oracle reports pending,
yet discovery skips it — the claimed equivalence (skip iff descriptor
present ∧ ¬force ∧ oracle-complete) is false: the oracle is never
consulted at discovery time. -/
theorem c2_skip_counterexample :
    get_file ["A12.int", "A12.bat"] reMatchInt = some "A12.int"
    ∧ mass_number_from_filename "A12.int" = some 12
    ∧ discoverTodo [⟨"Z6/A12", ["A12.int", "A12.bat"]⟩] [12] false = []
    ∧ calc_has_been_done ["A12.int", "A12.bat"] = false
    ∧ ¬ (discoverTodo [⟨"Z6/A12", ["A12.int", "A12.bat"]⟩] [12] false = []
          ↔ (get_file ["A12.int", "A12.bat"] reMatchBat).isSome = true
            ∧ calc_has_been_done ["A12.int", "A12.bat"] = true) := by
  refine ⟨by decide, by decide, by decide, by decide, ?_⟩
  intro h
  have h1 : discoverTodo [⟨"Z6/A12", ["A12.int", "A12.bat"]⟩] [12] false = [] := by
    decide
  have h2 := h.mp h1
  have h3 : calc_has_been_done ["A12.int", "A12.bat"] = false := by decide
  rw [h3] at h2
  exact Bool.false_ne_true h2.2

/-- C2 amended: at discovery time, a directory whose interaction file's
identifier passes the range predicate is skipped if and only if a stage-2
descriptor (`.bat`) file exists and `force` is false; the Idempotency
Oracle is not consulted at discovery (it is consulted only later, when the
stage-2 calculation is about to run). -/
theorem c2_skip_amended (tree : List DirEntry) (a_range : List Nat)
    (force : Bool) (d : DirEntry) (f : String) (a : Nat)
    (hint : get_file d.files reMatchInt = some f)
    (hmass : mass_number_from_filename f = some a)
    (hrange : a ∈ a_range) :
    d ∈ discoverTodo tree a_range force ↔
      d ∈ tree ∧ (force = true ∨ get_file d.files reMatchBat = none) := by
  unfold discoverTodo
  rw [List.mem_filter, selectPred_eq_of_mass a_range force d.files f a hint hmass hrange]
  cases hf : force
  · cases hb : get_file d.files reMatchBat <;> simp [hb]
  · simp

/-- C2 amended, witness: with `force = true` the directory holding both
`A12.int` and `A12.bat` is selected. -/
theorem c2_skip_amended_witness :
    (⟨"Z6/A12", ["A12.int", "A12.bat"]⟩ : DirEntry)
        ∈ discoverTodo [⟨"Z6/A12", ["A12.int", "A12.bat"]⟩] [12] true ↔
      (⟨"Z6/A12", ["A12.int", "A12.bat"]⟩ : DirEntry)
          ∈ [(⟨"Z6/A12", ["A12.int", "A12.bat"]⟩ : DirEntry)]
        ∧ (true = true
           ∨ get_file (⟨"Z6/A12", ["A12.int", "A12.bat"]⟩ : DirEntry).files reMatchBat
               = none) :=
  c2_skip_amended [⟨"Z6/A12", ["A12.int", "A12.bat"]⟩] [12] true
    ⟨"Z6/A12", ["A12.int", "A12.bat"]⟩ "A12.int" 12 (by decide) (by decide) (by decide)

/-- C7: a directory whose interaction filename's extracted identifier lies
outside the supplied mass-number range is never a member of the pending
set built by discovery. -/
theorem c7_range_filter (tree : List DirEntry) (a_range : List Nat)
    (force : Bool) (d : DirEntry) (f : String) (a : Nat)
    (hmem : d ∈ discoverTodo tree a_range force)
    (hint : get_file d.files reMatchInt = some f)
    (hmass : mass_number_from_filename f = some a) :
    a ∈ a_range := by
  unfold discoverTodo at hmem
  rw [List.mem_filter] at hmem
  have hsel := hmem.2
  unfold selectPred at hsel
  rw [hint] at hsel
  simp only [hmass] at hsel
  cases hc : force || (get_file d.files reMatchBat).isNone
  · rw [hc] at hsel
    simp at hsel
  · rw [hc] at hsel
    simpa using hsel

/-- C7 witness: the selected directory `Z6/A12` has its identifier 12
inside the supplied range. -/
theorem c7_range_filter_witness : (12 : Nat) ∈ [12] :=
  c7_range_filter [⟨"Z6/A12", ["A12.int", "A12.ans"]⟩] [12] false
    ⟨"Z6/A12", ["A12.int", "A12.ans"]⟩ "A12.int" 12 (by decide) (by decide) (by decide)

/-- C8: a directory whose interaction filename yields no parseable mass
number is excluded from the pending set, and the rest of the run is
unaffected: discovery of a tree containing it equals discovery of the
tree without it.  (The extraction and the membership test `None in
a_range` are total, so no exception is raised.) -/
theorem c8_malformed_id_skipped (t1 t2 : List DirEntry) (a_range : List Nat)
    (force : Bool) (d : DirEntry) (f : String)
    (hint : get_file d.files reMatchInt = some f)
    (hmass : mass_number_from_filename f = none) :
    discoverTodo (t1 ++ d :: t2) a_range force
      = discoverTodo t1 a_range force ++ discoverTodo t2 a_range force := by
  unfold discoverTodo
  rw [List.filter_append, List.filter_cons,
    selectPred_eq_false_of_mass_none a_range force d.files f hint hmass]
  simp

/-- C8 witness: a `usdb.int` interaction file has no parseable mass
number; its directory is dropped and its neighbours are kept. -/
theorem c8_malformed_id_skipped_witness :
    discoverTodo
        ([⟨"Z6/A12", ["A12.int", "A12.ans"]⟩] ++
          (⟨"Z6/usdb", ["usdb.int"]⟩ : DirEntry) :: [⟨"Z6/A14", ["A14.int"]⟩])
        [12, 14] false
      = discoverTodo [⟨"Z6/A12", ["A12.int", "A12.ans"]⟩] [12, 14] false
        ++ discoverTodo [⟨"Z6/A14", ["A14.int"]⟩] [12, 14] false :=
  c8_malformed_id_skipped [⟨"Z6/A12", ["A12.int", "A12.ans"]⟩]
    [⟨"Z6/A14", ["A14.int"]⟩] [12, 14] false ⟨"Z6/usdb", ["usdb.int"]⟩
    "usdb.int" (by decide) (by decide)

/-- C3 counterexample: the job directory holds `A12.int`, `A12.ans` and
two `.lpt` report files but no `.bat` descriptor.  The oracle reports it
completed and `force` is false, yet it is selected as pending and the
executor launches the stage-1 `shell` program: the stage-1 guard tests
`.bat`-presence, not the oracle. -/
theorem c3_done_job_counterexample :
    calc_has_been_done ["A12.int", "A12.ans", "x.lpt", "y.lpt"] = true
    ∧ selectPred [12] false ["A12.int", "A12.ans", "x.lpt", "y.lpt"] = true
    ∧ shell_and_bat ⟨id, 0, some 0, some 0⟩
        ["A12.int", "A12.ans", "x.lpt", "y.lpt"]
        ["A12.int", "A12.ans", "x.lpt", "y.lpt"] false false
      = Except.ok ⟨some 0, none, true, false, false, false⟩ :=
  ⟨by decide, by decide, rfl⟩

/-- C3 amended: if `force` is false, a stage-2 descriptor (`.bat`) file is
present in the job's listing, and the Idempotency Oracle reports the job
completed, then the executor performs no external invocation: neither
`shell` nor `source` is launched. -/
theorem c3_done_job_no_invocation (env : JobEnv) (files : List String)
    (b : String) (verbose : Bool)
    (hbat : get_file files reMatchBat = some b)
    (hdone : calc_has_been_done files = true) :
    shell_and_bat env files files false verbose
      = Except.ok ⟨none, none, false, false, false, verbose⟩ := by
  have h1 : do_shell_calculation env files false = none := by
    unfold do_shell_calculation
    rw [hbat]
    simp
  have h2 : do_bat_calculation env files false = Except.ok none := by
    unfold do_bat_calculation
    rw [hbat, hdone]
    simp
  unfold shell_and_bat
  rw [h1]
  simp only [Option.isSome_none, Bool.false_eq_true, if_false, h2]
  rfl

/-- C3 amended, witness: a completed directory with its `.bat` descriptor
present triggers no invocation. -/
theorem c3_done_job_no_invocation_witness :
    shell_and_bat ⟨id, 0, some 0, some 0⟩
        ["A12.ans", "A12.bat", "x.lpt", "y.lpt"]
        ["A12.ans", "A12.bat", "x.lpt", "y.lpt"] false false
      = Except.ok ⟨none, none, false, false, false, false⟩ :=
  c3_done_job_no_invocation ⟨id, 0, some 0, some 0⟩
    ["A12.ans", "A12.bat", "x.lpt", "y.lpt"] "A12.bat" false
    (by decide) (by decide)

/-- C6 counterexample: when both the direct launch and the interpreter-
mediated retry of the stage-2 `source` command fail (`OSError` twice), no
failure is recorded in any outcome and the next job is not executed: the
exception propagates and the sequential run over two jobs aborts with it. -/
theorem c6_double_launch_failure_counterexample :
    bat_calculation none none = Except.error ()
    ∧ seqRun (fun _ => ⟨id, 0, none, none⟩) false false
        [⟨"Z6/A12", ["A12.int", "A12.ans", "A12.bat"]⟩,
         ⟨"Z6/A13", ["A13.int", "A13.ans", "A13.bat"]⟩]
      = Except.error () :=
  ⟨rfl, rfl⟩

/-- C6 amended: the stage-2 invocation attempts the direct launch first
and succeeds with its exit status; exactly when the direct launch itself
fails, the same command line is retried once via the interpreter-mediated
path; if that retry also fails to launch, the error propagates out of the
executor — no outcome is recorded for the job and, in a sequential run,
the remaining jobs are not executed. -/
theorem c6_launch_retry_amended :
    (∀ (rc : Int) (s : Option Int),
        bat_calculation (some rc) s = Except.ok (rc, false))
    ∧ (∀ (rc : Int), bat_calculation none (some rc) = Except.ok (rc, true))
    ∧ bat_calculation none none = Except.error ()
    ∧ (∀ (envf : DirEntry → JobEnv) (j : DirEntry) (rest : List DirEntry)
        (force verbose : Bool),
        shell_and_bat (envf j) j.files j.files force verbose = Except.error () →
        seqRun envf force verbose (j :: rest) = Except.error ()) := by
  refine ⟨fun rc s => rfl, fun rc => rfl, rfl, ?_⟩
  intro envf j rest force verbose h
  unfold seqRun
  rw [h]

/-- C6 amended, witness: a job whose `source` launches fail twice aborts
the sequential run. -/
theorem c6_launch_retry_amended_witness :
    bat_calculation (some 2) none = Except.ok (2, false)
    ∧ seqRun (fun _ => ⟨id, 0, none, none⟩) false false
        [⟨"Z6/A12", ["A12.bat"]⟩, ⟨"Z6/A13", ["A13.bat"]⟩] = Except.error () :=
  ⟨c6_launch_retry_amended.1 2 none,
   c6_launch_retry_amended.2.2.2 (fun _ => ⟨id, 0, none, none⟩)
     ⟨"Z6/A12", ["A12.bat"]⟩ [⟨"Z6/A13", ["A13.bat"]⟩] false false rfl⟩

/-- A successful executor call ran both stages with the `verbose` flag it
was given. -/
lemma shell_and_bat_ok_verbose (env : JobEnv) (files disk : List String)
    (force vb : Bool) (o : ExecOutcome)
    (h : shell_and_bat env files disk force vb = Except.ok o) :
    o.verbose = vb := by
  simp only [shell_and_bat] at h
  split at h
  · exact absurd h (by simp)
  · simp only [Except.ok.injEq] at h
    rw [← h]

/-- C10: whenever threading is enabled and more than one job is pending,
the dispatch result is independent of the configured `verbose` flag, and
every Task Executor invocation in the threaded branch ran with
`verbose = false` (output capture forced on). -/
theorem c10_threaded_ignores_verbose (envf : DirEntry → JobEnv)
    (tree : List DirEntry) (a_range : List Nat) (force v1 v2 : Bool)
    (hlen : 1 < (discoverTodo tree a_range force).length) :
    do_calculations_model envf tree a_range force v1 true
      = do_calculations_model envf tree a_range force v2 true
    ∧ ∀ (o : ExecOutcome),
        Except.ok o ∈
          dispatchThreadOuts (do_calculations_model envf tree a_range force v1 true) →
        o.verbose = false := by
  constructor
  · simp [do_calculations_model, hlen]
  · intro o hmem
    have hq : do_calculations_model envf tree a_range force v1 true
        = DispatchResult.threadedRes ((discoverTodo tree a_range force).map
            (fun j => shell_and_bat (envf j) j.files j.files force false)) := by
      simp [do_calculations_model, hlen]
    rw [hq] at hmem
    simp only [dispatchThreadOuts, List.mem_map] at hmem
    obtain ⟨j, _, hj⟩ := hmem
    exact shell_and_bat_ok_verbose (envf j) j.files j.files force false o hj

/-- C10 witness: a two-job pending set dispatched with threading gives the
same result under `verbose = true` and `verbose = false`. -/
theorem c10_threaded_ignores_verbose_witness :
    do_calculations_model (fun _ => ⟨id, 0, some 0, some 0⟩)
        [⟨"Z6/A12", ["A12.int", "A12.ans"]⟩, ⟨"Z6/A13", ["A13.int", "A13.ans"]⟩]
        [12, 13] false true true
      = do_calculations_model (fun _ => ⟨id, 0, some 0, some 0⟩)
        [⟨"Z6/A12", ["A12.int", "A12.ans"]⟩, ⟨"Z6/A13", ["A13.int", "A13.ans"]⟩]
        [12, 13] false false true :=
  (c10_threaded_ignores_verbose (fun _ => ⟨id, 0, some 0, some 0⟩)
    [⟨"Z6/A12", ["A12.int", "A12.ans"]⟩, ⟨"Z6/A13", ["A13.int", "A13.ans"]⟩]
    [12, 13] false true false (by decide)).1

/-- In every reachable scheduler state there are at most `N` entries in
`active_list`. -/
lemma tstep_active_bound (N : Nat) (jobs : List DirEntry) (s : TState)
    (h : TReach N (initT jobs) s) : s.active.length ≤ N := by
  induction h with
  | refl => simp [initT]
  | tail h1 h2 ih =>
    cases h2 with
    | launch rest j heq hlt => simpa using hlt
    | finish j hmem => simpa using ih
    | drain j rest heq hmem =>
      exact le_trans (List.erase_sublist _ _).length_le ih

/-- Conservation of jobs in the threaded scheduler: every pending job is
exactly one of not-yet-launched, in `active_list`, or counted in
`jobs_completed`. -/
lemma tstep_conservation (N : Nat) (jobs : List DirEntry) (s : TState)
    (h : TReach N (initT jobs) s) :
    s.completed + s.todo.length + s.active.length = jobs.length := by
  induction h with
  | refl => simp [initT]
  | tail h1 h2 ih =>
    cases h2 with
    | launch rest j heq hlt =>
      rw [heq] at ih
      simp only [List.length_append, List.length_cons, List.length_nil] at ih
      dsimp only
      simp only [List.length_cons]
      omega
    | finish j hmem => simpa using ih
    | drain j rest heq hmem =>
      have h1 := List.length_erase_of_mem hmem
      have h2 := List.length_pos_of_mem hmem
      dsimp only
      omega

/-- C4: in a threaded dispatch, every state the scheduler loop can reach
keeps the number of entries of `active_list` (hence the number of
concurrently running Task Executor workers) at most the configured bound
`N`, and a step that grows `active_list` — a worker launch — can only be
taken while the count is strictly below `N`. -/
theorem c4_concurrency_bound :
    (∀ (N : Nat) (jobs : List DirEntry) (s : TState),
        TReach N (initT jobs) s → s.active.length ≤ N)
    ∧ (∀ (N : Nat) (s t : TState), TStep N s t →
        s.active.length < t.active.length → s.active.length < N) := by
  constructor
  · exact tstep_active_bound
  · intro N s t hstep hlt
    cases hstep with
    | launch rest j heq h => exact h
    | finish j hmem => simp at hlt
    | drain j rest heq hmem =>
      have hsub := (List.erase_sublist j s.active).length_le
      simp only at hlt
      omega

/-- C4 witness: from the initial state for one pending job with bound 2,
the invariant holds, and a concrete launch step satisfies the guard. -/
theorem c4_concurrency_bound_witness :
    (initT [⟨"Z6/A12", ["A12.int", "A12.ans"]⟩]).active.length ≤ 2
    ∧ (initT [⟨"Z6/A12", ["A12.int", "A12.ans"]⟩]).active.length < 2 :=
  ⟨c4_concurrency_bound.1 2 [⟨"Z6/A12", ["A12.int", "A12.ans"]⟩] _
      Relation.ReflTransGen.refl,
   c4_concurrency_bound.2 2 (initT [⟨"Z6/A12", ["A12.int", "A12.ans"]⟩])
     { todo := [], active := [⟨"Z6/A12", ["A12.int", "A12.ans"]⟩],
       doneq := [], completed := 0 }
     (TStep.launch [] ⟨"Z6/A12", ["A12.int", "A12.ans"]⟩ rfl (by decide))
     (by decide)⟩

/-- C5: over any dispatch run, threaded or sequential, the completed-jobs
counter never decreases across a step, never exceeds the total job count
in any reachable state, equals the total when the loop terminates (no job
pending, no worker active), and the dispatcher's return value is the truth
of `completed == total` (hence `true` at termination). -/
theorem c5_completed_counter :
    (∀ (N : Nat) (s t : TState), TStep N s t → s.completed ≤ t.completed)
    ∧ (∀ (N : Nat) (jobs : List DirEntry) (s : TState),
        TReach N (initT jobs) s →
        s.completed + s.todo.length + s.active.length = jobs.length)
    ∧ (∀ (N : Nat) (jobs : List DirEntry) (s : TState),
        TReach N (initT jobs) s → s.completed ≤ jobs.length)
    ∧ (∀ (N : Nat) (jobs : List DirEntry) (s : TState),
        TReach N (initT jobs) s → s.todo = [] → s.active = [] →
        s.completed = jobs.length ∧ tRet s jobs.length = true)
    ∧ (∀ (p q : List DirEntry × Nat), SeqStep p q → p.2 ≤ q.2)
    ∧ (∀ (jobs : List DirEntry) (s : List DirEntry × Nat),
        SeqReach (jobs, 0) s → s.2 + s.1.length = jobs.length)
    ∧ (∀ (jobs : List DirEntry) (s : List DirEntry × Nat),
        SeqReach (jobs, 0) s → s.1 = [] →
        s.2 = jobs.length ∧ seqRet s jobs.length = true) := by
  have hseqcons : ∀ (jobs : List DirEntry) (s : List DirEntry × Nat),
      SeqReach (jobs, 0) s → s.2 + s.1.length = jobs.length := by
    intro jobs s h
    induction h with
    | refl => simp
    | tail h1 h2 ih =>
      cases h2 with
      | step j rest c => simp only [List.length_cons] at *; omega
  refine ⟨?_, tstep_conservation, ?_, ?_, ?_, hseqcons, ?_⟩
  · intro N s t hstep
    cases hstep <;> simp
  · intro N jobs s h
    have := tstep_conservation N jobs s h
    omega
  · intro N jobs s h htodo hact
    have hc := tstep_conservation N jobs s h
    rw [htodo, hact] at hc
    simp only [List.length_nil] at hc
    refine ⟨by omega, ?_⟩
    simp [tRet]
    omega
  · intro p q hstep
    cases hstep with
    | step j rest c => simp
  · intro jobs s h hnil
    have hc := hseqcons jobs s h
    rw [hnil] at hc
    simp only [List.length_nil] at hc
    refine ⟨by omega, ?_⟩
    simp [seqRet]
    omega

/-- C5 witness: a one-job sequential and threaded run each terminate with
`completed = total` and return `true`. -/
theorem c5_completed_counter_witness :
    ((([] : List DirEntry), 1).2 = [(⟨"Z6/A12", ["A12.int"]⟩ : DirEntry)].length
      ∧ seqRet (([] : List DirEntry), 1) [(⟨"Z6/A12", ["A12.int"]⟩ : DirEntry)].length
          = true)
    ∧ (0 : Nat) ≤ [(⟨"Z6/A12", ["A12.int"]⟩ : DirEntry)].length :=
  ⟨c5_completed_counter.2.2.2.2.2.2 [⟨"Z6/A12", ["A12.int"]⟩] ([], 1)
      (Relation.ReflTransGen.single (SeqStep.step ⟨"Z6/A12", ["A12.int"]⟩ [] 0)) rfl,
   c5_completed_counter.2.2.1 3 [⟨"Z6/A12", ["A12.int"]⟩] _
      Relation.ReflTransGen.refl⟩

/-- The ten decimal digit characters. -/
def decimalDigits : List Char :=
  ['0', '1', '2', '3', '4', '5', '6', '7', '8', '9']

lemma digitChar_mem_digits (n : Nat) : digitChar n ∈ decimalDigits := by
  unfold digitChar
  repeat' split
  all_goals decide

lemma natCharsAux_mem_digits (fuel : Nat) : ∀ (n : Nat) (c : Char),
    c ∈ natCharsAux fuel n → c ∈ decimalDigits := by
  induction fuel with
  | zero =>
    intro n c hc
    simp [natCharsAux] at hc
  | succ fuel ih =>
    intro n c hc
    unfold natCharsAux at hc
    by_cases h : n < 10
    · rw [if_pos h] at hc
      simp only [List.mem_singleton] at hc
      exact hc ▸ digitChar_mem_digits n
    · rw [if_neg h] at hc
      rcases List.mem_append.mp hc with h1 | h2
      · exact ih _ _ h1
      · simp only [List.mem_singleton] at h2
        exact h2 ▸ digitChar_mem_digits _

lemma natChars_count_eq_zero (n : Nat) (c : Char) (hc : c ∉ decimalDigits) :
    (natChars n).count c = 0 := by
  rw [List.count_eq_zero]
  intro hmem
  exact hc (natCharsAux_mem_digits _ _ _ hmem)

lemma count_replicate_ne (n : Nat) (a b : Char) (h : b ≠ a) :
    (List.replicate n b).count a = 0 := by
  rw [List.count_replicate]
  simp [h]

lemma progressText_count_hash (c t : Nat) : (progressText c t).count '#' = 0 := by
  unfold progressText fmtNumR fmtNumL
  have h1 : ("  Progress: ".data).count '#' = 0 := by decide
  have h2 : ("/".data).count '#' = 0 := by decide
  have h3 : (" ".data).count '#' = 0 := by decide
  have h4 := natChars_count_eq_zero c '#' (by decide)
  have h5 := natChars_count_eq_zero t '#' (by decide)
  have h6 := count_replicate_ne (3 - (natChars c).length) '#' ' ' (by decide)
  have h7 := count_replicate_ne (3 - (natChars t).length) '#' ' ' (by decide)
  simp [List.count_append, h1, h2, h3, h4, h5, h6, h7]

lemma progressText_count_nl (c t : Nat) : (progressText c t).count '\n' = 0 := by
  unfold progressText fmtNumR fmtNumL
  have h1 : ("  Progress: ".data).count '\n' = 0 := by decide
  have h2 : ("/".data).count '\n' = 0 := by decide
  have h3 : (" ".data).count '\n' = 0 := by decide
  have h4 := natChars_count_eq_zero c '\n' (by decide)
  have h5 := natChars_count_eq_zero t '\n' (by decide)
  have h6 := count_replicate_ne (3 - (natChars c).length) '\n' ' ' (by decide)
  have h7 := count_replicate_ne (3 - (natChars t).length) '\n' ' ' (by decide)
  simp [List.count_append, h1, h2, h3, h4, h5, h6, h7]

lemma progressBarChars_count_hash (f w : Nat) :
    (progressBarChars f w).count '#' = f := by
  unfold progressBarChars
  have h1 := count_replicate_ne (w - f) '#' ' ' (by decide)
  simp [List.count_append, h1, List.count_replicate]

lemma progressBarChars_count_nl (f w : Nat) :
    (progressBarChars f w).count '\n' = 0 := by
  unfold progressBarChars
  have h1 := count_replicate_ne (w - f) '\n' ' ' (by decide)
  have h2 := count_replicate_ne f '\n' '#' (by decide)
  simp [List.count_append, h1, h2]

lemma getLastQ_mem (l : List Char) (a : Char) (h : l.getLast? = some a) :
    a ∈ l := by
  have hx : a ∈ l.getLast? := Option.mem_def.mpr h
  obtain ⟨hne, heq⟩ := List.mem_getLast?_eq_getLast hx
  rw [heq]
  exact List.getLast_mem hne

/-- Decomposition of the rendered line into its source components. -/
lemma progressLineChars_eq (c t : Nat) (e : Bool) :
    progressLineChars c t e
      = '\r' :: (progressText c t
          ++ List.replicate (WIDTH_TERM - (progressText c t).length
              - (progressBarChars (c * WIDTH_PROGRESS_BAR / t)
                  WIDTH_PROGRESS_BAR).length) ' '
          ++ progressBarChars (c * WIDTH_PROGRESS_BAR / t) WIDTH_PROGRESS_BAR)
        ++ (if e then ['\n'] else []) := by
  unfold progressLineChars
  cases e <;> simp

/-- C9: the progress renderer writes nothing at all when `total == 0`;
otherwise it writes a single carriage-return-prefixed line — a
`completed/total` label followed by the fixed-width bar — whose number of
filled `#` cells equals `floor(completed / total * bar_width)`, and the
line ends with a newline terminator if and only if `final` is set. -/
theorem c9_progress_render (completed total : Nat) (endFlag : Bool) :
    (total = 0 → print_progress completed total endFlag = none)
    ∧ (0 < total →
        print_progress completed total endFlag
          = some (progressLineChars completed total endFlag)
        ∧ (progressLineChars completed total endFlag).head? = some '\r'
        ∧ (progressLineChars completed total endFlag).count '#'
            = completed * WIDTH_PROGRESS_BAR / total
        ∧ (progressLineChars completed total endFlag).count '\n'
            = (if endFlag then 1 else 0)
        ∧ ((progressLineChars completed total endFlag).getLast? = some '\n'
            ↔ endFlag = true)
        ∧ (completed ≤ total →
            (progressBarChars (completed * WIDTH_PROGRESS_BAR / total)
              WIDTH_PROGRESS_BAR).length = 50)) := by
  constructor
  · intro h0
    simp [print_progress, h0]
  · intro hpos
    have hcnl : (progressLineChars completed total endFlag).count '\n'
        = (if endFlag then 1 else 0) := by
      rw [progressLineChars_eq]
      have h1 := progressText_count_nl completed total
      have h2 := progressBarChars_count_nl
        (completed * WIDTH_PROGRESS_BAR / total) WIDTH_PROGRESS_BAR
      have h3 := count_replicate_ne (WIDTH_TERM
        - (progressText completed total).length
        - (progressBarChars (completed * WIDTH_PROGRESS_BAR / total)
            WIDTH_PROGRESS_BAR).length) '\n' ' ' (by decide)
      cases endFlag <;>
        simp [List.count_append, List.count_cons, h1, h2, h3]
    refine ⟨?_, ?_, ?_, hcnl, ?_, ?_⟩
    · simp [print_progress, hpos]
    · rw [progressLineChars_eq]
      simp
    · rw [progressLineChars_eq]
      have h1 := progressText_count_hash completed total
      have h2 := progressBarChars_count_hash
        (completed * WIDTH_PROGRESS_BAR / total) WIDTH_PROGRESS_BAR
      have h3 := count_replicate_ne (WIDTH_TERM
        - (progressText completed total).length
        - (progressBarChars (completed * WIDTH_PROGRESS_BAR / total)
            WIDTH_PROGRESS_BAR).length) '#' ' ' (by decide)
      cases endFlag <;>
        simp [List.count_append, List.count_cons, h1, h2, h3]
    · cases he : endFlag
      · constructor
        · intro hlast
          have hmem := getLastQ_mem _ _ hlast
          have hzero : (progressLineChars completed total false).count '\n' = 0 := by
            rw [he] at hcnl
            simpa using hcnl
          exact absurd hmem (List.count_eq_zero.mp hzero)
        · intro hf
          exact absurd hf (by simp)
      · constructor
        · intro _
          rfl
        · intro _
          rw [progressLineChars_eq, if_pos rfl, ← List.cons_append]
          exact List.getLast?_concat _
    · intro hle
      have hf : completed * WIDTH_PROGRESS_BAR / total ≤ WIDTH_PROGRESS_BAR := by
        calc completed * WIDTH_PROGRESS_BAR / total
            ≤ total * WIDTH_PROGRESS_BAR / total :=
              Nat.div_le_div_right (Nat.mul_le_mul_right _ hle)
          _ = WIDTH_PROGRESS_BAR := Nat.mul_div_cancel_left _ hpos
      unfold progressBarChars
      simp only [List.length_append, List.length_replicate, List.length_cons,
        List.length_nil]
      unfold WIDTH_PROGRESS_BAR at hf ⊢
      omega

/-- C9 witness: nothing is rendered for `total = 0`; for `completed = 3`,
`total = 4`, `final = true` the line has 36 filled cells, ends in a
newline, and the bar is 50 characters wide. -/
theorem c9_progress_render_witness :
    print_progress 5 0 true = none
    ∧ (progressLineChars 3 4 true).count '#' = 3 * WIDTH_PROGRESS_BAR / 4
    ∧ ((progressLineChars 3 4 true).getLast? = some '\n' ↔ true = true)
    ∧ (progressBarChars (3 * WIDTH_PROGRESS_BAR / 4) WIDTH_PROGRESS_BAR).length = 50 :=
  ⟨(c9_progress_render 5 0 true).1 rfl,
   ((c9_progress_render 3 4 true).2 (by decide)).2.2.1,
   ((c9_progress_render 3 4 true).2 (by decide)).2.2.2.2.1,
   ((c9_progress_render 3 4 true).2 (by decide)).2.2.2.2.2 (by decide)⟩

end ShellCalc
